import Mathlib

/-!
Verification of the resilient dispatch subsystem of the
selection_translator_anki GNOME extension, against its natural-language
specification.  The JavaScript sources `extension.js` and `prefs.js` are
shallowly embedded below: JS strings are modelled as `List Char` (one
entry per UTF-16 code unit), timers and asynchronous callbacks as explicit
small-step state machines driven by an external schedule, and the external
GNOME Shell helper `Util.findUrls` as an abstract parameter.
-/

namespace SelectionTranslator

/-! ## Constants (extension.js lines 23-32) -/

def MAX_TEXT_LEN : Nat := 200

def HOTKEY_DEBOUNCE_MS : Nat := 80

def DBUS_RETRY_DELAY_MS : Nat := 200

def DBUS_RETRY_ATTEMPTS : Nat := 10

/-- A JS string, one list entry per UTF-16 code unit. -/
def JsStr : Type := List Char

instance : DecidableEq JsStr := by
  unfold JsStr
  infer_instance

/-- `startsWithSub hay needle` : `needle` occurs at the head of `hay`. -/
def startsWithSub : List Char → List Char → Bool
  | _, [] => true
  | [], _ :: _ => false
  | a :: as, b :: bs => a = b && startsWithSub as bs

/-- JS `hay.includes(needle)` : `needle` occurs as a contiguous run of `hay`. -/
def includesSub : List Char → List Char → Bool
  | hay, needle =>
    startsWithSub hay needle ||
      match hay with
      | [] => false
      | _ :: t => includesSub t needle

/-- The three retryable D-Bus error markers (extension.js lines 28-32). -/
def DBUS_RETRYABLE_ERRORS : List (List Char) :=
  ["org.freedesktop.DBus.Error.ServiceUnknown".toList,
   "org.freedesktop.DBus.Error.UnknownObject".toList,
   "org.freedesktop.DBus.Error.UnknownMethod".toList]

/-! ## SelectionSanitizer (extension.js `_sanitizeText`, lines 162-180) -/

/-- One character of the JS `\s` class (whitespace as matched by the
`TEXT_FILTER` regex `/^[.\s\d-]+$/`). -/
def isJsSpace (c : Char) : Bool :=
  c = ' ' || c = '\t' || c = '\n' || (c = Char.ofNat 11) || (c = Char.ofNat 12) ||
  c = '\r' || (c = Char.ofNat 0x00a0) || (c = Char.ofNat 0x1680) ||
  (0x2000 ≤ c.toNat && c.toNat ≤ 0x200a) || (c = Char.ofNat 0x2028) ||
  (c = Char.ofNat 0x2029) || (c = Char.ofNat 0x202f) || (c = Char.ofNat 0x205f) ||
  (c = Char.ofNat 0x3000) || (c = Char.ofNat 0xfeff)

/-- One character of the class `[.\s\d-]` of `TEXT_FILTER` (extension.js line 23). -/
def isFilterChar (c : Char) : Bool :=
  c = '.' || isJsSpace c || c.isDigit || c = '-'

/-- `TEXT_FILTER.exec(s)` is non-null: `s` matches `/^[.\s\d-]+$/`, i.e. `s`
is non-empty and made exclusively of `.`, whitespace, digits and `-`. -/
def textFilterMatches (s : List Char) : Bool :=
  !s.isEmpty && s.all isFilterChar

/-- The truncation step of `_sanitizeText` (extension.js lines 166-169):
`trimmed.slice(0, MAX_TEXT_LEN)` when longer than `MAX_TEXT_LEN`. -/
def jsTruncate (t : List Char) : List Char :=
  if t.length > MAX_TEXT_LEN then t.take MAX_TEXT_LEN else t

/-- Shallow embedding of `_sanitizeText` (extension.js lines 162-180).
`findUrls` abstracts the external GNOME Shell helper `Util.findUrls`,
given as the number of URL matches it reports. `none` models both an
absent (`null`/`undefined`) input and a `null` result. -/
def sanitizeText (findUrls : List Char → Nat) (text : Option JsStr) : Option JsStr :=
  match text with
  | none => none
  | some t =>
    if t = ([] : List Char) then
      none
    else
      let trimmed : List Char := jsTruncate t
      if trimmed = ([] : List Char) || trimmed.head? = some '/' ||
          findUrls trimmed ≠ 0 || textFilterMatches trimmed then
        none
      else
        some trimmed

/-! ## ConnectionManager: `_getProxy` (extension.js lines 219-237)

The proxy slot `this._proxy` is an `Option Handle`; `construct` models the
outcome of `Gio.DBusProxy.new_for_bus_sync` on this attempt: `none` means
the constructor threw (the `catch` sets the slot to `null`). The function
returns the new slot content together with the returned value, and a flag
saying whether an exception escaped (`_getProxy` swallows the constructor
failure, so the flag is always `false`). -/

structure GetProxyOut (Handle : Type) where
  newSlot : Option Handle
  returned : Option Handle
  raised : Bool

def getProxy {Handle : Type} (slot : Option Handle) (construct : Option Handle) :
    GetProxyOut Handle :=
  match slot with
  | some p => { newSlot := some p, returned := some p, raised := false }
  | none =>
    match construct with
    | some p => { newSlot := some p, returned := some p, raised := false }
    | none => { newSlot := none, returned := none, raised := false }

/-! ## RetryScheduler: `_callDbus` / `_callDbusWithRetry` / `_scheduleRetry`
(extension.js lines 239-282)

One logical call is driven by an environment `env : Nat → RetryEvent`
giving, for the attempt with counter value `k`, what the outside world did:
`noProxy` — `_getProxy()` returned null (proxy construction failed);
`callOk` — the proxy existed and `call_finish` succeeded;
`callErr msg` — the proxy existed and `call_finish` threw an error whose
string form is `msg`.  `runRetryFrom env k` replays the execution starting
at `_callDbusWithRetry(method, parameters, k)` and records what happened. -/

inductive RetryEvent where
  | noProxy : RetryEvent
  | callOk : RetryEvent
  | callErr (msg : List Char) : RetryEvent

/-- `message.includes(marker)` for some marker of `DBUS_RETRYABLE_ERRORS`
(extension.js line 262). -/
def matchesRetryableMarker (msg : List Char) : Bool :=
  DBUS_RETRYABLE_ERRORS.any (fun marker => includesSub msg marker)

/-- Record of one replayed logical call:
`attempts` — the counter values of the executed `_callDbusWithRetry`
invocations, in order; `calls` — how many `proxy.call` were issued;
`delays` — the timer delay (ms) preceding each retry, in order;
`invalidations` — how many times `this._proxy = null` ran in the error
handler; `raisedToCaller` — whether any error escaped to the caller
(the catch at line 258 swallows everything, so it never does). -/
structure RetryLog where
  attempts : List Nat
  calls : Nat
  delays : List Nat
  invalidations : Nat
  raisedToCaller : Bool
deriving DecidableEq, Repr

def RetryLog.stopHere (attempt : Nat) (calls : Nat) : RetryLog :=
  { attempts := [attempt], calls := calls, delays := [],
    invalidations := 0, raisedToCaller := false }

def runRetryFrom (env : Nat → RetryEvent) (attempt : Nat) : RetryLog :=
  match env attempt with
  | RetryEvent.noProxy =>
    -- line 245-247: no proxy, `_scheduleRetry`; line 275: give up at the cap
    if h : attempt < DBUS_RETRY_ATTEMPTS then
      let rest := runRetryFrom env (attempt + 1)
      { attempts := attempt :: rest.attempts, calls := rest.calls,
        delays := DBUS_RETRY_DELAY_MS :: rest.delays,
        invalidations := rest.invalidations,
        raisedToCaller := rest.raisedToCaller }
    else
      RetryLog.stopHere attempt 0
  | RetryEvent.callOk => RetryLog.stopHere attempt 1
  | RetryEvent.callErr msg =>
    -- lines 258-268: retry only when the counter is under the cap and the
    -- message carries a retryable marker; then invalidate and reschedule
    if h : attempt < DBUS_RETRY_ATTEMPTS ∧ matchesRetryableMarker msg = true then
      let rest := runRetryFrom env (attempt + 1)
      { attempts := attempt :: rest.attempts, calls := 1 + rest.calls,
        delays := DBUS_RETRY_DELAY_MS :: rest.delays,
        invalidations := 1 + rest.invalidations,
        raisedToCaller := rest.raisedToCaller }
    else
      RetryLog.stopHere attempt 1
termination_by DBUS_RETRY_ATTEMPTS + 1 - attempt
decreasing_by
  · omega
  · omega

/-- `_callDbus` (extension.js lines 239-241): the counter starts at 0. -/
def runRetry (env : Nat → RetryEvent) : RetryLog :=
  runRetryFrom env 0

/-! ## Debouncer: `_scheduleTranslate` / `_clearDebounce`
(extension.js lines 182-209, initial state from `enable`, lines 66-71)

`pendingText` is `this._pendingText`, `debounceId` is
`this._hotkeyDebounceId` (0 = no timer, as in the source), `timers` counts
the live GLib timeout sources owned by the debouncer (`timeout_add`
creates one, returning a fresh non-zero id; returning `SOURCE_REMOVE` from
the callback or `source_remove` destroys it), `emitted` records the
arguments of the `_callTranslate` calls, `nextId` generates fresh ids. -/

structure DebState where
  pendingText : Option JsStr
  debounceId : Nat
  timers : Nat
  emitted : List JsStr
  nextId : Nat
deriving DecidableEq

/-- State set up by `enable` (extension.js lines 68-69). -/
def debInit : DebState :=
  { pendingText := none, debounceId := 0, timers := 0, emitted := [], nextId := 1 }

/-- `_scheduleTranslate(text)` (extension.js lines 182-200): store the
candidate; if a timer is already running, return; otherwise arm one. -/
def scheduleTranslate (text : JsStr) (s : DebState) : DebState :=
  let s1 := { s with pendingText := some text }
  if s1.debounceId ≠ 0 then
    s1
  else
    { s1 with
      debounceId := s1.nextId
      timers := s1.timers + 1
      nextId := s1.nextId + 1 }

/-- The debounce timer callback (extension.js lines 190-198): zero the id,
take and clear the pending candidate, call `_callTranslate` when one was
stored, and remove the source (`GLib.SOURCE_REMOVE`). Only meaningful on a
state whose timer is armed (`debounceId ≠ 0`). -/
def fireDebounce (s : DebState) : DebState :=
  let pending := s.pendingText
  { s with
    debounceId := 0
    pendingText := none
    timers := s.timers - 1
    emitted :=
      match pending with
      | none => s.emitted
      | some p => s.emitted ++ [p] }

/-- `_clearDebounce` (extension.js lines 202-209). -/
def clearDebounce (s : DebState) : DebState :=
  if s.debounceId = 0 then
    s
  else
    { s with debounceId := 0, timers := s.timers - 1, pendingText := none }

/-! ## HotkeyController (extension.js lines 101-145)

`settingsStrv` is the current value of the `hotkey` string-list key in the
settings store; `hotkey` is the cached copy `this._hotkey`;
`hotkeyRegistered` is `this._hotkeyRegistered`.  `events` records the
shell-facing actions (`addKeybinding` with the accelerator in force, and
`removeKeybinding`). -/

inductive HkEvent where
  | addKeybinding : HkEvent
  | removeKeybinding : HkEvent
deriving DecidableEq

structure HkState where
  settingsStrv : List JsStr
  hotkey : JsStr
  hotkeyRegistered : Bool
  events : List HkEvent
deriving DecidableEq

/-- `_getHotkeyValue` (extension.js lines 101-107), with the settings
object present. -/
def getHotkeyValue (s : HkState) : JsStr :=
  match s.settingsStrv with
  | [] => []
  | v :: _ => v

/-- `_registerHotkey` (extension.js lines 119-135). -/
def registerHotkey (s : HkState) : HkState :=
  if getHotkeyValue s = ([] : List Char) then
    s
  else
    { s with
      hotkeyRegistered := true
      events := s.events ++ [HkEvent.addKeybinding] }

/-- `_unregisterHotkey` (extension.js lines 137-145); the
`removeKeybinding` failure is swallowed. -/
def unregisterHotkey (s : HkState) : HkState :=
  if s.hotkeyRegistered then
    { s with
      hotkeyRegistered := false
      events := s.events ++ [HkEvent.removeKeybinding] }
  else
    s

/-- `_onHotkeyChanged` (extension.js lines 109-117). -/
def onHotkeyChanged (s : HkState) : HkState :=
  let next := getHotkeyValue s
  if next = s.hotkey then
    s
  else
    registerHotkey (unregisterHotkey { s with hotkey := next })

/-! ## CallRegistry: `callDbus` / the `close-request` handler
(prefs.js lines 142-156 and 217-247)

Each `callDbus` invocation creates one `Gio.Cancellable` (identified here
by a fresh natural number), adds it to `activeCalls`, and starts one
asynchronous D-Bus call.  The transport eventually invokes the completion
callback exactly once per issued call; per GLib semantics, once
`cancellable.cancel()` has been requested before that delivery,
`call_finish` throws `G_IO_ERROR_CANCELLED`, which the model folds into
the delivered result.  The callback first deletes the cancellable from
`activeCalls`, then runs `call_finish` and either `onSuccess`, the caller
`onError`, or the default `showMessage` handler (prefs.js lines 230-245).
`Val` stands for the unpacked variant value. -/

inductive DbusError where
  | cancelled : DbusError
  | fail (msg : JsStr) : DbusError
deriving DecidableEq

/-- A callback invocation observable at the settings surface:
`success id v` — `onSuccess(value)` ran for call `id`;
`errorCb id e` — the caller-supplied `onError(error)` ran;
`defaultMsg id e` — no `onError` was supplied and the default
`showMessage` branch ran. -/
inductive CbEvent where
  | success (id : Nat) (v : Nat) : CbEvent
  | errorCb (id : Nat) (e : DbusError) : CbEvent
  | defaultMsg (id : Nat) (e : DbusError) : CbEvent
deriving DecidableEq

/-- Which call an event belongs to. -/
def CbEvent.callId : CbEvent → Nat
  | CbEvent.success id _ => id
  | CbEvent.errorCb id _ => id
  | CbEvent.defaultMsg id _ => id

structure PrefsState where
  activeCalls : List Nat
  cancelled : List Nat
  issued : List (Nat × Bool)
  completedIds : List Nat
  log : List CbEvent
  nextId : Nat
deriving DecidableEq

/-- State after `fillPreferencesWindow` sets up `activeCalls` (prefs.js
line 146), before any call. -/
def prefsInit : PrefsState :=
  { activeCalls := [], cancelled := [], issued := [], completedIds := [],
    log := [], nextId := 0 }

/-- `callDbus(method, parameters, onSuccess, onError)` up to the
asynchronous boundary (prefs.js lines 217-229): create the cancellable,
add it to the tracked set and issue the call.  `hasOnError` is whether the
caller passed a non-null `onError`. -/
def invokeCall (hasOnError : Bool) (s : PrefsState) : PrefsState :=
  { s with
    activeCalls := s.activeCalls ++ [s.nextId]
    issued := s.issued ++ [(s.nextId, hasOnError)]
    nextId := s.nextId + 1 }

/-- The `close-request` handler (prefs.js lines 148-156): request
cancellation on every tracked cancellable, then clear the set. -/
def closeRequest (s : PrefsState) : PrefsState :=
  { s with
    cancelled := s.cancelled ++ s.activeCalls
    activeCalls := [] }

/-- First half of the completion callback (prefs.js line 231):
`activeCalls.delete(cancellable)`. -/
def completeRemove (id : Nat) (s : PrefsState) : PrefsState :=
  { s with
    activeCalls := s.activeCalls.filter (fun x => x ≠ id)
    completedIds := s.completedIds ++ [id] }

/-- Second half of the completion callback (prefs.js lines 232-244):
`call_finish` either returns the value or throws; a cancellable cancelled
before delivery makes it throw `cancelled`; on error the caller handler or
the default `showMessage` branch runs. `raw` is what the transport itself
produced. -/
def completeInvoke (id : Nat) (raw : Except JsStr Nat) (s : PrefsState) : PrefsState :=
  let hasOnError := ((s.issued.filter (fun p => p.1 = id)).map Prod.snd).headD false
  let res : Except DbusError Nat :=
    if id ∈ s.cancelled then Except.error DbusError.cancelled
    else match raw with
      | Except.ok v => Except.ok v
      | Except.error m => Except.error (DbusError.fail m)
  match res with
  | Except.ok v => { s with log := s.log ++ [CbEvent.success id v] }
  | Except.error e =>
    if hasOnError then { s with log := s.log ++ [CbEvent.errorCb id e] }
    else { s with log := s.log ++ [CbEvent.defaultMsg id e] }

/-- The whole completion callback: removal strictly precedes the
callback invocation. -/
def completeCall (id : Nat) (raw : Except JsStr Nat) (s : PrefsState) : PrefsState :=
  completeInvoke id raw (completeRemove id s)

/-- One scheduled event of the settings surface. -/
inductive PrefsStep where
  | invoke (hasOnError : Bool) : PrefsStep
  | close : PrefsStep
  | complete (id : Nat) (raw : Except JsStr Nat) : PrefsStep

def applyPrefsStep (s : PrefsState) : PrefsStep → PrefsState
  | PrefsStep.invoke b => invokeCall b s
  | PrefsStep.close => closeRequest s
  | PrefsStep.complete id raw => completeCall id raw s

def runPrefsFrom (s : PrefsState) : List PrefsStep → PrefsState
  | [] => s
  | step :: rest => runPrefsFrom (applyPrefsStep s step) rest

def runPrefs (steps : List PrefsStep) : PrefsState :=
  runPrefsFrom prefsInit steps

/-- A `complete` event is admissible only for a call that was issued and
not yet completed: the transport fires each call's completion callback
exactly once. -/
def stepOk (s : PrefsState) : PrefsStep → Bool
  | PrefsStep.complete id _ =>
    s.issued.any (fun p => p.1 = id) && !(decide (id ∈ s.completedIds))
  | _ => true

/-- A schedule is valid when every step is admissible in the state it
runs in. -/
def validFrom (s : PrefsState) : List PrefsStep → Bool
  | [] => true
  | step :: rest => stepOk s step && validFrom (applyPrefsStep s step) rest

def validSchedule (steps : List PrefsStep) : Bool :=
  validFrom prefsInit steps

/-! ## Theorems: SelectionSanitizer (claims C5, C6) -/

/-- The rejection condition as the spec words it, on the already-truncated
string: empty, or begins with `/`, or contains a recognizable URL (the
abstract `findUrls` reports at least one match), or is composed
exclusively of `.`, whitespace, digits and `-`. -/
def specRejectsAfterTrunc (findUrls : List Char → Nat) (trimmed : List Char) : Prop :=
  trimmed = [] ∨ trimmed.head? = some '/' ∨ 0 < findUrls trimmed ∨
    (trimmed ≠ [] ∧ ∀ c ∈ trimmed, isFilterChar c = true)

instance (findUrls : List Char → Nat) (trimmed : List Char) :
    Decidable (specRejectsAfterTrunc findUrls trimmed) := by
  unfold specRejectsAfterTrunc
  infer_instance

/-- Helper: when the spec-side rejection condition holds of the truncated
input, `_sanitizeText` returns null. -/
theorem sanitizeText_eq_none_of_reject (findUrls : List Char → Nat) (t : List Char)
    (h : specRejectsAfterTrunc findUrls (jsTruncate t)) :
    sanitizeText findUrls (some t) = none := by
  by_cases ht : t = ([] : List Char)
  · subst ht
    simp [sanitizeText]
  · have hcond : ((jsTruncate t = ([] : List Char)) ||
        ((jsTruncate t).head? = some '/') ||
        (findUrls (jsTruncate t) ≠ 0) || textFilterMatches (jsTruncate t)) = true := by
      rcases h with h1 | h2 | h3 | ⟨hne, hall⟩
      · simp [h1]
      · simp [h2]
      · have hne0 : findUrls (jsTruncate t) ≠ 0 := Nat.pos_iff_ne_zero.mp h3
        simp [hne0]
      · have hfm : textFilterMatches (jsTruncate t) = true := by
          cases hjt : jsTruncate t with
          | nil => exact absurd hjt hne
          | cons c cs =>
            rw [hjt] at hall
            simp only [textFilterMatches, List.isEmpty_cons, Bool.not_false,
              Bool.true_and, List.all_eq_true]
            exact hall
        simp [hfm]
    simp only [sanitizeText]
    rw [if_neg ht, if_pos hcond]

/-- C5: `sanitizeText` (a total function by construction, deterministic
because it is a pure function of its arguments) returns absent on an
absent input, and on every input which after truncation is empty, begins
with `/`, contains a recognizable URL, or is composed exclusively of `.`,
whitespace, digits and `-`; in particular it sends `""`, absent and
`"/path"` to absent, for every behaviour of the external URL finder. -/
theorem sanitizeText_rejects (findUrls : List Char → Nat) (t : List Char)
    (h : specRejectsAfterTrunc findUrls (jsTruncate t)) :
    sanitizeText findUrls (some t) = none ∧
    sanitizeText findUrls none = none ∧
    sanitizeText findUrls (some ("".toList)) = none ∧
    sanitizeText findUrls (some ("/path".toList)) = none :=
  ⟨sanitizeText_eq_none_of_reject findUrls t h, rfl,
   sanitizeText_eq_none_of_reject findUrls ("".toList) (Or.inl (by decide)),
   sanitizeText_eq_none_of_reject findUrls ("/path".toList)
     (Or.inr (Or.inl (by decide)))⟩

/-- C5 witness: a string of only digits, whitespace, dots and dashes is
rejected. -/
theorem sanitizeText_rejects_witness :
    specRejectsAfterTrunc (fun _ => 0) (jsTruncate ("12. 3-".toList)) ∧
    (sanitizeText (fun _ => 0) (some ("12. 3-".toList)) = none ∧
     sanitizeText (fun _ => 0) none = none ∧
     sanitizeText (fun _ => 0) (some ("".toList)) = none ∧
     sanitizeText (fun _ => 0) (some ("/path".toList)) = none) :=
  ⟨by decide, sanitizeText_rejects (fun _ => 0) ("12. 3-".toList) (by decide)⟩

/-- C6: an input longer than 200 code units is truncated to exactly 200
code units before the rejection checks run: sanitizing it is the same as
sanitizing its 200-unit prefix, and any non-absent result is that prefix,
of length exactly 200. -/
theorem sanitizeText_truncates (findUrls : List Char → Nat) (t : List Char)
    (h : t.length > MAX_TEXT_LEN) :
    sanitizeText findUrls (some t) =
      sanitizeText findUrls (some (t.take MAX_TEXT_LEN)) ∧
    ∀ r, sanitizeText findUrls (some t) = some r →
      r = t.take MAX_TEXT_LEN ∧ r.length = MAX_TEXT_LEN := by
  have hlen : (t.take MAX_TEXT_LEN).length = MAX_TEXT_LEN := by
    simp [List.length_take, Nat.min_eq_left (Nat.le_of_lt h)]
  have ht : t ≠ ([] : List Char) := by
    intro he
    rw [he] at h
    simp [MAX_TEXT_LEN] at h
  have htk : t.take MAX_TEXT_LEN ≠ ([] : List Char) := by
    intro he
    rw [he] at hlen
    simp [MAX_TEXT_LEN] at hlen
  have hjt : jsTruncate t = t.take MAX_TEXT_LEN := by
    simp [jsTruncate, h]
  have hjt2 : jsTruncate (t.take MAX_TEXT_LEN) = t.take MAX_TEXT_LEN := by
    simp [jsTruncate, hlen]
  have hmain : sanitizeText findUrls (some t) =
      (if ((t.take MAX_TEXT_LEN = ([] : List Char)) ||
          ((t.take MAX_TEXT_LEN).head? = some '/') ||
          (findUrls (t.take MAX_TEXT_LEN) ≠ 0) ||
          textFilterMatches (t.take MAX_TEXT_LEN)) then none
       else some (t.take MAX_TEXT_LEN)) := by
    simp only [sanitizeText, hjt]
    rw [if_neg ht]
  have hpref : sanitizeText findUrls (some (t.take MAX_TEXT_LEN)) =
      (if ((t.take MAX_TEXT_LEN = ([] : List Char)) ||
          ((t.take MAX_TEXT_LEN).head? = some '/') ||
          (findUrls (t.take MAX_TEXT_LEN) ≠ 0) ||
          textFilterMatches (t.take MAX_TEXT_LEN)) then none
       else some (t.take MAX_TEXT_LEN)) := by
    simp only [sanitizeText, hjt2]
    rw [if_neg htk]
  constructor
  · rw [hmain, hpref]
  · intro r hr
    rw [hmain] at hr
    split at hr
    · exact absurd hr (by simp)
    · have heq : t.take MAX_TEXT_LEN = r := Option.some.inj hr
      exact ⟨heq.symm, heq ▸ hlen⟩

/-- C6 witness: a 201-character input. -/
theorem sanitizeText_truncates_witness :
    (List.replicate 201 'a').length > MAX_TEXT_LEN ∧
    (sanitizeText (fun _ => 0) (some (List.replicate 201 'a')) =
      sanitizeText (fun _ => 0) (some ((List.replicate 201 'a').take MAX_TEXT_LEN)) ∧
     ∀ r, sanitizeText (fun _ => 0) (some (List.replicate 201 'a')) = some r →
       r = (List.replicate 201 'a').take MAX_TEXT_LEN ∧ r.length = MAX_TEXT_LEN) :=
  ⟨by norm_num [MAX_TEXT_LEN],
   sanitizeText_truncates (fun _ => 0) (List.replicate 201 'a')
     (by norm_num [MAX_TEXT_LEN])⟩

/-! ## Theorems: ConnectionManager / RetryScheduler (claims C2, C3, C8) -/

/-- Above the retry cap every event ends the sequence at once. -/
theorem runRetryFrom_ge_cap (env : Nat → RetryEvent) (k : Nat)
    (hk : ¬ k < DBUS_RETRY_ATTEMPTS) :
    (runRetryFrom env k).attempts = [k] ∧ (runRetryFrom env k).delays = [] ∧
    (runRetryFrom env k).invalidations = 0 ∧
    (runRetryFrom env k).raisedToCaller = false := by
  cases henv : env k with
  | noProxy =>
    rw [runRetryFrom, henv]
    simp only [dif_neg hk]
    exact ⟨rfl, rfl, rfl, rfl⟩
  | callOk =>
    rw [runRetryFrom, henv]
    exact ⟨rfl, rfl, rfl, rfl⟩
  | callErr msg =>
    have hn : ¬ (k < DBUS_RETRY_ATTEMPTS ∧ matchesRetryableMarker msg = true) :=
      fun hand => hk hand.1
    rw [runRetryFrom, henv]
    simp only [dif_neg hn]
    exact ⟨rfl, rfl, rfl, rfl⟩

/-- Structural shape of a replayed logical call starting at counter `k`:
the executed attempts are the consecutive counter values `k, …, k + m`,
every retry delay is the fixed `DBUS_RETRY_DELAY_MS`, retries never push
the counter past the cap, and no error is ever raised to the caller. -/
theorem runRetryFrom_shape (env : Nat → RetryEvent) :
    ∀ d k, DBUS_RETRY_ATTEMPTS ≤ k + d →
      ∃ m, (runRetryFrom env k).attempts = List.range' k (m + 1) ∧
        (runRetryFrom env k).delays = List.replicate m DBUS_RETRY_DELAY_MS ∧
        (m = 0 ∨ k + m ≤ DBUS_RETRY_ATTEMPTS) ∧
        (runRetryFrom env k).raisedToCaller = false := by
  intro d
  induction d with
  | zero =>
    intro k hk
    obtain ⟨h1, h2, _, h4⟩ := runRetryFrom_ge_cap env k (by omega)
    exact ⟨0, by simp [h1, List.range'], by simp [h2], Or.inl rfl, h4⟩
  | succ d ih =>
    intro k hk
    by_cases hklt : k < DBUS_RETRY_ATTEMPTS
    · cases henv : env k with
      | noProxy =>
        rw [runRetryFrom, henv]
        simp only [dif_pos hklt]
        obtain ⟨m, h1, h2, h3, h4⟩ := ih (k + 1) (by omega)
        refine ⟨m + 1, ?_, ?_, ?_, h4⟩
        · simp only [h1, List.range'_succ]
        · simp only [h2, List.replicate_succ]
        · rcases h3 with h3 | h3
          · exact Or.inr (by omega)
          · exact Or.inr (by omega)
      | callOk =>
        rw [runRetryFrom, henv]
        exact ⟨0, by simp [RetryLog.stopHere, List.range'],
          by simp [RetryLog.stopHere], Or.inl rfl, rfl⟩
      | callErr msg =>
        by_cases hretry : matchesRetryableMarker msg = true
        · rw [runRetryFrom, henv]
          simp only [dif_pos (And.intro hklt hretry)]
          obtain ⟨m, h1, h2, h3, h4⟩ := ih (k + 1) (by omega)
          refine ⟨m + 1, ?_, ?_, ?_, h4⟩
          · simp only [h1, List.range'_succ]
          · simp only [h2, List.replicate_succ]
          · rcases h3 with h3 | h3
            · exact Or.inr (by omega)
            · exact Or.inr (by omega)
        · have hn : ¬ (k < DBUS_RETRY_ATTEMPTS ∧ matchesRetryableMarker msg = true) :=
            fun hand => hretry hand.2
          rw [runRetryFrom, henv]
          simp only [dif_neg hn]
          exact ⟨0, by simp [RetryLog.stopHere, List.range'],
            by simp [RetryLog.stopHere], Or.inl rfl, rfl⟩
    · obtain ⟨h1, h2, _, h4⟩ := runRetryFrom_ge_cap env k hklt
      exact ⟨0, by simp [h1, List.range'], by simp [h2], Or.inl rfl, h4⟩

/-- C2 (amended): the attempt counter starts at 0; at most
`DBUS_RETRY_ATTEMPTS + 1 = 11` attempts are performed in total (the
initial attempt plus at most 10 scheduled retries); every inter-attempt
delay is the fixed `DBUS_RETRY_DELAY_MS = 200` ms; and however the
environment behaves, the sequence terminates without raising anything to
the caller. -/
theorem retry_bounded_and_delayed (env : Nat → RetryEvent) :
    (runRetry env).attempts.head? = some 0 ∧
    (runRetry env).attempts.length ≤ DBUS_RETRY_ATTEMPTS + 1 ∧
    (∀ d ∈ (runRetry env).delays, d = DBUS_RETRY_DELAY_MS) ∧
    (runRetry env).raisedToCaller = false := by
  obtain ⟨m, h1, h2, h3, h4⟩ :=
    runRetryFrom_shape env DBUS_RETRY_ATTEMPTS 0 (by omega)
  rw [runRetry]
  refine ⟨?_, ?_, ?_, h4⟩
  · rw [h1, List.range'_succ]
    rfl
  · rw [h1, List.length_range']
    rcases h3 with h3 | h3
    · omega
    · omega
  · intro d hd
    rw [h2] at hd
    exact List.eq_of_mem_replicate hd

/-- C2 counterexample: when the proxy is never obtained, eleven attempts —
counter values 0 through 10 — are performed, so the claim's cap of at most
ten attempts in total is exceeded. -/
theorem retry_eleven_attempts_counterexample :
    (runRetry (fun _ => RetryEvent.noProxy)).attempts =
      [0, 1, 2, 3, 4, 5, 6, 7, 8, 9, 10] ∧
    ¬ (runRetry (fun _ => RetryEvent.noProxy)).attempts.length ≤ 10 := by
  have h : (runRetry (fun _ => RetryEvent.noProxy)).attempts =
      [0, 1, 2, 3, 4, 5, 6, 7, 8, 9, 10] := by
    simp [runRetry, runRetryFrom, DBUS_RETRY_ATTEMPTS, RetryLog.stopHere]
  refine ⟨h, ?_⟩
  rw [h]
  decide

/-- A realistic error message whose text carries the ServiceUnknown
marker. -/
def errServiceUnknown : List Char :=
  "org.freedesktop.DBus.Error.ServiceUnknown".toList

/-- A realistic error message carrying none of the retryable markers. -/
def errNoReply : List Char :=
  "org.freedesktop.DBus.Error.NoReply".toList

/-- The spec's error classification, in its own words: a transport error
is Retryable iff its message matches one of the three fixed
service-not-yet-available markers. -/
def specRetryable (msg : List Char) : Prop :=
  includesSub msg ("org.freedesktop.DBus.Error.ServiceUnknown".toList) = true ∨
  includesSub msg ("org.freedesktop.DBus.Error.UnknownObject".toList) = true ∨
  includesSub msg ("org.freedesktop.DBus.Error.UnknownMethod".toList) = true

instance (msg : List Char) : Decidable (specRetryable msg) := by
  unfold specRetryable
  infer_instance

/-- The code's marker scan agrees with the spec's classification. -/
theorem matchesRetryableMarker_iff (msg : List Char) :
    matchesRetryableMarker msg = true ↔ specRetryable msg := by
  simp only [matchesRetryableMarker, DBUS_RETRYABLE_ERRORS, specRetryable,
    List.any_cons, List.any_nil, Bool.or_eq_true, Bool.or_false]

/-- C3 (amended): a transport failure is classified Retryable iff its
message matches one of the three fixed service-not-yet-available markers;
a Retryable failure on an attempt k below the retry cap invalidates the
connection and schedules (and eventually performs) attempt k + 1, while a
Fatal-classified failure on any attempt k — and a Retryable failure with
attempts already exhausted — terminates the sequence with no attempt
k + 1 and no invalidation. -/
theorem retry_classification (env : Nat → RetryEvent) (k : Nat) (msg : List Char)
    (henv : env k = RetryEvent.callErr msg) :
    (matchesRetryableMarker msg = true ↔ specRetryable msg) ∧
    (specRetryable msg → k < DBUS_RETRY_ATTEMPTS →
      (runRetryFrom env k).invalidations =
        1 + (runRetryFrom env (k + 1)).invalidations ∧
      (runRetryFrom env k).attempts = k :: (runRetryFrom env (k + 1)).attempts ∧
      (k + 1) ∈ (runRetryFrom env k).attempts) ∧
    (¬ specRetryable msg →
      (runRetryFrom env k).attempts = [k] ∧
      (runRetryFrom env k).invalidations = 0) := by
  refine ⟨matchesRetryableMarker_iff msg, ?_, ?_⟩
  · intro hspec hklt
    have hretry : matchesRetryableMarker msg = true :=
      (matchesRetryableMarker_iff msg).mpr hspec
    have hstep : (runRetryFrom env k).invalidations =
        1 + (runRetryFrom env (k + 1)).invalidations ∧
        (runRetryFrom env k).attempts = k :: (runRetryFrom env (k + 1)).attempts := by
      rw [runRetryFrom, henv]
      simp only [dif_pos (And.intro hklt hretry)]
      constructor <;> trivial
    refine ⟨hstep.1, hstep.2, ?_⟩
    obtain ⟨m, h1, _, _, _⟩ :=
      runRetryFrom_shape env DBUS_RETRY_ATTEMPTS (k + 1) (by omega)
    rw [hstep.2, h1, List.range'_succ]
    simp
  · intro hspec
    have hretry : ¬ matchesRetryableMarker msg = true :=
      fun hm => hspec ((matchesRetryableMarker_iff msg).mp hm)
    have hn : ¬ (k < DBUS_RETRY_ATTEMPTS ∧ matchesRetryableMarker msg = true) :=
      fun hand => hretry hand.2
    rw [runRetryFrom, henv]
    simp only [dif_neg hn]
    exact ⟨rfl, rfl⟩

/-- C3 witness: a ServiceUnknown failure on attempt 0 is classified
Retryable, invalidates the connection and performs attempt 1; a NoReply
failure is Fatal and stops at once. -/
theorem retry_classification_witness :
    ((matchesRetryableMarker errServiceUnknown = true ↔
      specRetryable errServiceUnknown) ∧
     (specRetryable errServiceUnknown →
       0 < DBUS_RETRY_ATTEMPTS →
       (runRetryFrom
           (fun _ => RetryEvent.callErr errServiceUnknown) 0).invalidations =
         1 + (runRetryFrom
           (fun _ => RetryEvent.callErr errServiceUnknown) 1).invalidations ∧
       (runRetryFrom
           (fun _ => RetryEvent.callErr errServiceUnknown) 0).attempts =
         0 :: (runRetryFrom
           (fun _ => RetryEvent.callErr errServiceUnknown) 1).attempts ∧
       1 ∈ (runRetryFrom
           (fun _ => RetryEvent.callErr errServiceUnknown) 0).attempts) ∧
     (¬ specRetryable errServiceUnknown →
       (runRetryFrom
           (fun _ => RetryEvent.callErr errServiceUnknown) 0).attempts = [0] ∧
       (runRetryFrom
           (fun _ => RetryEvent.callErr errServiceUnknown) 0).invalidations = 0)) ∧
    (¬ specRetryable errNoReply →
      (runRetryFrom (fun _ => RetryEvent.callErr errNoReply) 0).attempts = [0] ∧
      (runRetryFrom (fun _ => RetryEvent.callErr errNoReply) 0).invalidations = 0) :=
  ⟨retry_classification
     (fun _ => RetryEvent.callErr errServiceUnknown) 0 errServiceUnknown rfl,
   (retry_classification
     (fun _ => RetryEvent.callErr errNoReply) 0 errNoReply rfl).2.2⟩

/-- C3 counterexample: a Retryable-classified failure (ServiceUnknown) on
attempt 10 — the last attempt of a run that starts at counter 0 — does
not invalidate the connection and does not schedule attempt 11, so
"a Retryable failure invalidates the connection and schedules another
attempt" is false as a statement about every transport failure. -/
theorem retry_retryable_exhausted_counterexample :
    matchesRetryableMarker errServiceUnknown = true ∧
    (runRetry (fun _ => RetryEvent.callErr errServiceUnknown)).attempts =
      [0, 1, 2, 3, 4, 5, 6, 7, 8, 9, 10] ∧
    (runRetryFrom (fun _ => RetryEvent.callErr errServiceUnknown) 10).attempts =
      [10] ∧
    (runRetryFrom (fun _ => RetryEvent.callErr errServiceUnknown) 10).invalidations =
      0 := by
  have hm : matchesRetryableMarker errServiceUnknown = true := by decide
  refine ⟨hm, ?_, ?_, ?_⟩
  · simp [runRetry, runRetryFrom, DBUS_RETRY_ATTEMPTS, RetryLog.stopHere, hm]
  · simp [runRetryFrom, DBUS_RETRY_ATTEMPTS, RetryLog.stopHere, hm]
  · simp [runRetryFrom, DBUS_RETRY_ATTEMPTS, RetryLog.stopHere, hm]

/-- Helper for C8: when the proxy is never obtained, no call is issued. -/
theorem runRetryFrom_noProxy_calls (env : Nat → RetryEvent)
    (henv : ∀ j, env j = RetryEvent.noProxy) :
    ∀ d k, DBUS_RETRY_ATTEMPTS ≤ k + d → (runRetryFrom env k).calls = 0 := by
  intro d
  induction d with
  | zero =>
    intro k hk
    rw [runRetryFrom, henv k]
    simp only [dif_neg (by omega : ¬ k < DBUS_RETRY_ATTEMPTS)]
    rfl
  | succ d ih =>
    intro k hk
    by_cases hklt : k < DBUS_RETRY_ATTEMPTS
    · rw [runRetryFrom, henv k]
      simp only [dif_pos hklt]
      exact ih (k + 1) (by omega)
    · rw [runRetryFrom, henv k]
      simp only [dif_neg hklt]
      rfl

/-- C8: `_getProxy` returns absent on construction failure without
raising; and when the proxy construction fails on every attempt of a
logical call, no RPC call is ever issued and nothing is raised to the
caller. -/
theorem retry_no_proxy_silent {Handle : Type} (env : Nat → RetryEvent)
    (henv : ∀ j, env j = RetryEvent.noProxy) :
    getProxy (none : Option Handle) none =
      { newSlot := none, returned := none, raised := false } ∧
    (runRetry env).calls = 0 ∧
    (runRetry env).raisedToCaller = false := by
  obtain ⟨_, _, _, _, h4⟩ := runRetryFrom_shape env DBUS_RETRY_ATTEMPTS 0 (by omega)
  refine ⟨rfl, ?_, ?_⟩
  · rw [runRetry]
    exact runRetryFrom_noProxy_calls env henv DBUS_RETRY_ATTEMPTS 0 (by omega)
  · rw [runRetry]
    exact h4

/-- C8 witness: the always-failing environment. -/
theorem retry_no_proxy_silent_witness :
    (∀ j, (fun _ : Nat => RetryEvent.noProxy) j = RetryEvent.noProxy) ∧
    (getProxy (none : Option Unit) none =
      { newSlot := none, returned := none, raised := false } ∧
     (runRetry (fun _ => RetryEvent.noProxy)).calls = 0 ∧
     (runRetry (fun _ => RetryEvent.noProxy)).raisedToCaller = false) :=
  ⟨fun _ => rfl, retry_no_proxy_silent (fun _ => RetryEvent.noProxy) (fun _ => rfl)⟩

/-! ## Theorems: Debouncer (claims C4, C10) -/

/-- `_scheduleTranslate` always stores the candidate it was given. -/
theorem scheduleTranslate_pendingText (c : JsStr) (s : DebState) :
    (scheduleTranslate c s).pendingText = some c := by
  unfold scheduleTranslate
  by_cases h : ({ s with pendingText := some c } : DebState).debounceId ≠ 0
  · rw [if_pos h]
  · rw [if_neg h]

/-- `_scheduleTranslate` never emits by itself. -/
theorem scheduleTranslate_emitted (c : JsStr) (s : DebState) :
    (scheduleTranslate c s).emitted = s.emitted := by
  unfold scheduleTranslate
  by_cases h : ({ s with pendingText := some c } : DebState).debounceId ≠ 0
  · rw [if_pos h]
  · rw [if_neg h]

/-- A burst of notifications leaves the emission log untouched. -/
theorem foldl_scheduleTranslate_emitted (cs : List JsStr) :
    ∀ s0 : DebState,
      (cs.foldl (fun s c => scheduleTranslate c s) s0).emitted = s0.emitted := by
  induction cs with
  | nil => intro s0; rfl
  | cons c cs ih =>
    intro s0
    rw [List.foldl_cons, ih, scheduleTranslate_emitted]

/-- C4: for every burst of notify calls landing inside one debounce
window, the timer expiry produces exactly one emission, carrying the last
candidate of the burst; a notify that finds the timer already running
changes nothing but the stored candidate (the timer is not reset); the
timer callback clears the stored candidate; and the callback is a no-op
emission-wise when nothing is pending. -/
theorem debounce_coalesces (s0 : DebState) (h0 : s0.debounceId = 0)
    (cs : List JsStr) (c : JsStr) :
    (fireDebounce ((cs ++ [c]).foldl (fun s x => scheduleTranslate x s) s0)).emitted =
      s0.emitted ++ [c] ∧
    (fireDebounce ((cs ++ [c]).foldl (fun s x => scheduleTranslate x s) s0)).pendingText =
      none ∧
    (fireDebounce ((cs ++ [c]).foldl (fun s x => scheduleTranslate x s) s0)).debounceId =
      0 ∧
    (∀ x s, s.debounceId ≠ 0 →
      scheduleTranslate x s = { s with pendingText := some x }) ∧
    (∀ s : DebState, s.pendingText = none → (fireDebounce s).emitted = s.emitted) := by
  have hfold : ((cs ++ [c]).foldl (fun s x => scheduleTranslate x s) s0) =
      scheduleTranslate c (cs.foldl (fun s x => scheduleTranslate x s) s0) := by
    rw [List.foldl_append, List.foldl_cons, List.foldl_nil]
  refine ⟨?_, rfl, rfl, ?_, ?_⟩
  · rw [hfold]
    simp only [fireDebounce, scheduleTranslate_pendingText, scheduleTranslate_emitted,
      foldl_scheduleTranslate_emitted]
  · intro x s hs
    unfold scheduleTranslate
    rw [if_pos hs]
  · intro s hs
    simp only [fireDebounce, hs]

/-- C4 witness: two notifications inside one window emit once, with the
second candidate. -/
theorem debounce_coalesces_witness :
    debInit.debounceId = 0 ∧
    ((fireDebounce ((["ab".toList] ++ ["cd".toList]).foldl
        (fun s x => scheduleTranslate x s) debInit)).emitted =
      debInit.emitted ++ (["cd".toList] : List JsStr) ∧
     (fireDebounce ((["ab".toList] ++ ["cd".toList]).foldl
        (fun s x => scheduleTranslate x s) debInit)).pendingText = none ∧
     (fireDebounce ((["ab".toList] ++ ["cd".toList]).foldl
        (fun s x => scheduleTranslate x s) debInit)).debounceId = 0 ∧
     (∀ x s, s.debounceId ≠ 0 →
       scheduleTranslate x s = { s with pendingText := some x }) ∧
     (∀ s : DebState, s.pendingText = none → (fireDebounce s).emitted = s.emitted)) :=
  ⟨rfl, debounce_coalesces debInit rfl ["ab".toList] ("cd".toList)⟩

/-- C10's invariant: a stored pending candidate implies an armed timer,
the number of live debounce timer sources is 1 exactly when the timer id
is non-zero (hence at most one timer ever exists), and the id generator
never produces the sentinel 0. -/
def DebInv (s : DebState) : Prop :=
  (s.pendingText.isSome = true → s.debounceId ≠ 0) ∧
  s.timers = (if s.debounceId = 0 then 0 else 1) ∧
  s.nextId ≠ 0

instance (s : DebState) : Decidable (DebInv s) := by
  unfold DebInv
  infer_instance

/-- C10: the debouncer invariant holds initially and is preserved by every
operation — notify (`_scheduleTranslate`), timer expiry (the timeout
callback, which only ever runs while the timer is armed) and cancel
(`_clearDebounce`) — and it caps the number of live debounce timers at
one. -/
theorem debounce_invariant_preserved :
    DebInv debInit ∧
    (∀ c s, DebInv s → DebInv (scheduleTranslate c s)) ∧
    (∀ s, DebInv s → s.debounceId ≠ 0 → DebInv (fireDebounce s)) ∧
    (∀ s, DebInv s → DebInv (clearDebounce s)) ∧
    (∀ s, DebInv s → s.timers ≤ 1) := by
  refine ⟨by decide, ?_, ?_, ?_, ?_⟩
  · intro c s hs
    obtain ⟨h1, h2, h3⟩ := hs
    unfold scheduleTranslate
    by_cases hid : ({ s with pendingText := some c } : DebState).debounceId ≠ 0
    · rw [if_pos hid]
      refine ⟨fun _ => hid, ?_, h3⟩
      simpa using h2
    · rw [if_neg hid]
      simp only [ne_eq, not_not] at hid
      refine ⟨fun _ => h3, ?_, Nat.succ_ne_zero _⟩
      simp only [if_neg h3]
      rw [h2, if_pos hid]
  · intro s hs hid
    obtain ⟨h1, h2, h3⟩ := hs
    refine ⟨?_, ?_, h3⟩
    · intro hp
      simp [fireDebounce] at hp
    · show s.timers - 1 = if (0 : Nat) = 0 then 0 else 1
      rw [if_pos rfl, h2, if_neg hid]
  · intro s hs
    obtain ⟨h1, h2, h3⟩ := hs
    unfold clearDebounce
    by_cases hid : s.debounceId = 0
    · rw [if_pos hid]
      exact ⟨h1, h2, h3⟩
    · rw [if_neg hid]
      refine ⟨?_, ?_, h3⟩
      · intro hp
        simp at hp
      · show s.timers - 1 = if (0 : Nat) = 0 then 0 else 1
        rw [if_pos rfl, h2, if_neg hid]
  · intro s hs
    rw [hs.2.1]
    by_cases hid : s.debounceId = 0
    · rw [if_pos hid]
      exact Nat.zero_le 1
    · rw [if_neg hid]

/-- C10 witness: the invariant after arming the timer from the initial
state, and the timer cap there. -/
theorem debounce_invariant_witness :
    DebInv debInit ∧
    DebInv (scheduleTranslate ("ab".toList) debInit) ∧
    (scheduleTranslate ("ab".toList) debInit).timers ≤ 1 :=
  ⟨debounce_invariant_preserved.1,
   debounce_invariant_preserved.2.1 ("ab".toList) debInit (by decide),
   debounce_invariant_preserved.2.2.2.2 (scheduleTranslate ("ab".toList) debInit)
     (debounce_invariant_preserved.2.1 ("ab".toList) debInit (by decide))⟩

/-! ## Theorems: HotkeyController (claim C7) -/

/-- C7: on a change notification the controller re-reads the binding; when
it equals the cached value nothing happens at all; otherwise it
unregisters the accelerator (when one was registered), updates the cache
to the new value, and re-registers exactly when the new value is
non-empty — so a change from a bound value to the empty binding
unregisters and leaves the accelerator unregistered, and any further
notification with the binding still unchanged is a no-op. -/
theorem hotkey_change_behaviour (s : HkState) :
    (getHotkeyValue s = s.hotkey → onHotkeyChanged s = s) ∧
    (getHotkeyValue s ≠ s.hotkey →
      (onHotkeyChanged s).hotkey = getHotkeyValue s ∧
      (onHotkeyChanged s).hotkeyRegistered =
        (if getHotkeyValue s = ([] : List Char) then false else true) ∧
      (onHotkeyChanged s).events = s.events ++
        (if s.hotkeyRegistered then [HkEvent.removeKeybinding] else []) ++
        (if getHotkeyValue s = ([] : List Char) then []
         else [HkEvent.addKeybinding]) ∧
      (onHotkeyChanged s).settingsStrv = s.settingsStrv) := by
  constructor
  · intro heq
    unfold onHotkeyChanged
    rw [if_pos heq]
  · intro hne
    have hget : ∀ h r e,
        getHotkeyValue { s with hotkey := h, hotkeyRegistered := r, events := e } =
          getHotkeyValue s := by
      intro h r e
      unfold getHotkeyValue
      rfl
    unfold onHotkeyChanged
    rw [if_neg hne]
    unfold unregisterHotkey
    by_cases hr : s.hotkeyRegistered
    · rw [if_pos hr]
      unfold registerHotkey
      by_cases hempty : getHotkeyValue s = ([] : List Char)
      · rw [if_pos (by rw [hget]; exact hempty)]
        simp [hempty, hr]
      · rw [if_neg (by rw [hget]; exact hempty)]
        simp [hempty, hr, hget]
    · rw [if_neg hr]
      unfold registerHotkey
      by_cases hempty : getHotkeyValue s = ([] : List Char)
      · rw [if_pos (by rw [hget]; exact hempty)]
        simp [hempty, hr]
      · rw [if_neg (by rw [hget]; exact hempty)]
        simp [hempty, hr, hget]

/-- The spec's scenario state: hotkey bound to `<Super>t` and registered,
the settings store just changed to the empty list. -/
def hkBound : HkState :=
  { settingsStrv := []
    hotkey := "<Super>t".toList
    hotkeyRegistered := true
    events := [] }

/-- C7 witness: the spec's scenario — hotkey bound and registered, the
settings value becomes empty: the controller unregisters, caches the
empty value, does not re-register, and a further notification with the
value still empty is then a no-op. -/
theorem hotkey_change_behaviour_witness :
    getHotkeyValue hkBound ≠ hkBound.hotkey ∧
    ((onHotkeyChanged hkBound).hotkey = [] ∧
     (onHotkeyChanged hkBound).hotkeyRegistered = false ∧
     (onHotkeyChanged hkBound).events = [HkEvent.removeKeybinding]) ∧
    onHotkeyChanged (onHotkeyChanged hkBound) = onHotkeyChanged hkBound := by
  have happ := (hotkey_change_behaviour hkBound).2 (by decide)
  refine ⟨by decide, ⟨?_, ?_, ?_⟩, ?_⟩
  · rw [happ.1]
    rfl
  · rw [happ.2.1]
    rfl
  · rw [happ.2.2.1]
    rfl
  · apply (hotkey_change_behaviour _).1
    have h1 : (onHotkeyChanged hkBound).settingsStrv = [] := happ.2.2.2
    have h2 : (onHotkeyChanged hkBound).hotkey = [] := by
      rw [happ.1]
      rfl
    rw [h2]
    unfold getHotkeyValue
    rw [h1]

/-! ## Theorems: CallRegistry (claims C1, C9) -/

/-- The completion callback appends exactly one event, for the completed
call; when cancellation was requested before delivery the event is the
error-path event carrying the cancellation error — never a success. -/
theorem completeInvoke_log (id : Nat) (raw : Except JsStr Nat) (s : PrefsState) :
    ∃ e : CbEvent, e.callId = id ∧
      completeInvoke id raw s = { s with log := s.log ++ [e] } ∧
      (id ∈ s.cancelled →
        e = CbEvent.errorCb id DbusError.cancelled ∨
        e = CbEvent.defaultMsg id DbusError.cancelled) := by
  by_cases hc : id ∈ s.cancelled
  · by_cases hh : ((s.issued.filter (fun p => p.1 = id)).map Prod.snd).headD false = true
    · refine ⟨CbEvent.errorCb id DbusError.cancelled, rfl, ?_, fun _ => Or.inl rfl⟩
      simp only [completeInvoke, if_pos hc, if_pos hh]
    · refine ⟨CbEvent.defaultMsg id DbusError.cancelled, rfl, ?_, fun _ => Or.inr rfl⟩
      simp only [completeInvoke, if_pos hc]
      rw [if_neg hh]
  · cases raw with
    | ok v =>
      refine ⟨CbEvent.success id v, rfl, ?_, fun h => absurd h hc⟩
      simp only [completeInvoke, if_neg hc]
    | error m =>
      by_cases hh : ((s.issued.filter (fun p => p.1 = id)).map Prod.snd).headD false = true
      · refine ⟨CbEvent.errorCb id (DbusError.fail m), rfl, ?_, fun h => absurd h hc⟩
        simp only [completeInvoke, if_neg hc, if_pos hh]
      · refine ⟨CbEvent.defaultMsg id (DbusError.fail m), rfl, ?_, fun h => absurd h hc⟩
        simp only [completeInvoke, if_neg hc]
        rw [if_neg hh]

/-- Requested cancellations are never forgotten by any later step. -/
theorem step_cancelled_mono (s : PrefsState) (st : PrefsStep) :
    ∀ x ∈ s.cancelled, x ∈ (applyPrefsStep s st).cancelled := by
  intro x hx
  cases st with
  | invoke b => exact hx
  | close => exact List.mem_append_left _ hx
  | complete id raw =>
    obtain ⟨e, _, he, _⟩ := completeInvoke_log id raw (completeRemove id s)
    show x ∈ (completeCall id raw s).cancelled
    rw [completeCall, he]
    exact hx

/-- No success callback for a cancelled call can ever be logged from the
moment cancellation has been requested. -/
theorem no_success_after_cancel (id : Nat) (post : List PrefsStep) :
    ∀ s : PrefsState, id ∈ s.cancelled →
      (∀ v, CbEvent.success id v ∉ s.log) →
      ∀ v, CbEvent.success id v ∉ (runPrefsFrom s post).log := by
  induction post with
  | nil =>
    intro s _ hlog
    exact hlog
  | cons st rest ih =>
    intro s hc hlog
    refine ih (applyPrefsStep s st) (step_cancelled_mono s st id hc) ?_
    cases st with
    | invoke b => exact hlog
    | close => exact hlog
    | complete idc raw =>
      obtain ⟨e, hcall, he, hcanc⟩ := completeInvoke_log idc raw (completeRemove idc s)
      intro v hv
      have hv2 : CbEvent.success id v ∈ s.log ++ [e] := by
        have hl : (applyPrefsStep s (PrefsStep.complete idc raw)).log =
            s.log ++ [e] := by
          show (completeCall idc raw s).log = s.log ++ [e]
          rw [completeCall, he]
          rfl
        rw [hl] at hv
        exact hv
      rcases List.mem_append.mp hv2 with h | h
      · exact hlog v h
      · have heq : CbEvent.success id v = e := List.mem_singleton.mp h
        by_cases hide : idc = id
        · subst hide
          rcases hcanc hc with h1 | h1 <;> rw [h1] at heq <;> exact CbEvent.noConfusion heq
        · have hidq : id = idc := by
            rw [← heq] at hcall
            exact hcall
          exact hide hidq.symm

/-- Registry invariant: every logged callback belongs to a completed call,
no tracked call is completed, and all recorded identifiers were minted by
the counter. -/
def RegInv (s : PrefsState) : Prop :=
  (∀ e ∈ s.log, e.callId ∈ s.completedIds) ∧
  (∀ id ∈ s.activeCalls, ¬ id ∈ s.completedIds) ∧
  (∀ id ∈ s.activeCalls, id < s.nextId) ∧
  (∀ id ∈ s.completedIds, id < s.nextId) ∧
  (∀ p ∈ s.issued, p.1 < s.nextId)

instance (s : PrefsState) : Decidable (RegInv s) := by
  unfold RegInv
  infer_instance

theorem regInv_init : RegInv prefsInit := by decide

theorem regInv_step (s : PrefsState) (st : PrefsStep) (h : RegInv s)
    (hval : ∀ id raw, st = PrefsStep.complete id raw →
      s.issued.any (fun p => p.1 = id) = true ∧ ¬ id ∈ s.completedIds) :
    RegInv (applyPrefsStep s st) := by
  obtain ⟨h1, h2, h3, h4, h5⟩ := h
  cases st with
  | invoke b =>
    refine ⟨h1, ?_, ?_, ?_, ?_⟩
    · intro id hid
      rcases List.mem_append.mp hid with hm | hm
      · exact h2 id hm
      · rw [List.mem_singleton.mp hm]
        intro hcm
        exact absurd rfl (Nat.ne_of_lt (h4 _ hcm)).symm
    · intro id hid
      rcases List.mem_append.mp hid with hm | hm
      · exact Nat.lt_succ_of_lt (h3 id hm)
      · rw [List.mem_singleton.mp hm]
        exact Nat.lt_succ_self _
    · intro id hid
      exact Nat.lt_succ_of_lt (h4 id hid)
    · intro p hp
      rcases List.mem_append.mp hp with hm | hm
      · exact Nat.lt_succ_of_lt (h5 p hm)
      · rw [List.mem_singleton.mp hm]
        exact Nat.lt_succ_self _
  | close =>
    refine ⟨h1, ?_, ?_, h4, h5⟩
    · intro id hid
      simp [applyPrefsStep, closeRequest] at hid
    · intro id hid
      simp [applyPrefsStep, closeRequest] at hid
  | complete id raw =>
    obtain ⟨hvi, hvc⟩ := hval id raw rfl
    have hlt : id < s.nextId := by
      obtain ⟨p, hp, hpe⟩ := List.any_eq_true.mp hvi
      have hplt := h5 p hp
      rwa [of_decide_eq_true hpe] at hplt
    obtain ⟨e, hcall, he, _⟩ := completeInvoke_log id raw (completeRemove id s)
    have hstate : applyPrefsStep s (PrefsStep.complete id raw) =
        { s with activeCalls := s.activeCalls.filter (fun x => x ≠ id),
                 completedIds := s.completedIds ++ [id],
                 log := s.log ++ [e] } := by
      show completeCall id raw s = _
      rw [completeCall, he]
      rfl
    rw [hstate]
    refine ⟨?_, ?_, ?_, ?_, h5⟩
    · intro ev hev
      rcases List.mem_append.mp hev with hm | hm
      · exact List.mem_append_left _ (h1 ev hm)
      · rw [List.mem_singleton.mp hm, hcall]
        exact List.mem_append_right _ (List.mem_singleton.mpr rfl)
    · intro x hx
      obtain ⟨hxm, hxne⟩ := List.mem_filter.mp hx
      intro hxc
      rcases List.mem_append.mp hxc with hm | hm
      · exact h2 x hxm hm
      · exact absurd (List.mem_singleton.mp hm)
          (by simpa using of_decide_eq_true hxne)
    · intro x hx
      exact h3 x (List.mem_filter.mp hx).1
    · intro x hx
      rcases List.mem_append.mp hx with hm | hm
      · exact h4 x hm
      · rw [List.mem_singleton.mp hm]
        exact hlt

theorem regInv_run (steps : List PrefsStep) :
    ∀ s, validFrom s steps = true → RegInv s → RegInv (runPrefsFrom s steps) := by
  induction steps with
  | nil =>
    intro s _ h
    exact h
  | cons st rest ih =>
    intro s hv h
    rw [validFrom, Bool.and_eq_true] at hv
    obtain ⟨hv1, hv2⟩ := hv
    refine ih _ hv2 (regInv_step s st h ?_)
    intro id raw hst
    subst hst
    rw [stepOk, Bool.and_eq_true] at hv1
    obtain ⟨ha, hb⟩ := hv1
    refine ⟨ha, ?_⟩
    simpa using hb

theorem runPrefsFrom_append (l1 l2 : List PrefsStep) :
    ∀ s, runPrefsFrom s (l1 ++ l2) = runPrefsFrom (runPrefsFrom s l1) l2 := by
  induction l1 with
  | nil =>
    intro s
    rfl
  | cons st rest ih =>
    intro s
    rw [List.cons_append, runPrefsFrom, runPrefsFrom, ih]

/-- C9: the completion callback removes the call's cancellation handle
from the tracked set before invoking any callback — after the removal
phase the handle is gone, and the callback phase leaves the tracked set
untouched — so along every valid schedule the tracked set never retains a
handle for a call that has already produced a callback. -/
theorem registry_removes_before_callback (steps : List PrefsStep) (id : Nat)
    (raw : Except JsStr Nat) (s : PrefsState)
    (hv : validSchedule steps = true) :
    ¬ id ∈ (completeRemove id s).activeCalls ∧
    completeCall id raw s = completeInvoke id raw (completeRemove id s) ∧
    (completeInvoke id raw (completeRemove id s)).activeCalls =
      (completeRemove id s).activeCalls ∧
    ∀ e ∈ (runPrefs steps).log, ¬ e.callId ∈ (runPrefs steps).activeCalls := by
  refine ⟨?_, rfl, ?_, ?_⟩
  · intro hmem
    obtain ⟨_, hne⟩ := List.mem_filter.mp hmem
    exact absurd rfl (of_decide_eq_true hne)
  · obtain ⟨e, _, he, _⟩ := completeInvoke_log id raw (completeRemove id s)
    rw [he]
  · have hinv := regInv_run steps prefsInit hv regInv_init
    intro e he hact
    exact hinv.2.1 e.callId hact (hinv.1 e he)

/-- C9 witness: one issued call, then its completion, on the initial
registry state. -/
theorem registry_removes_before_callback_witness :
    validSchedule [PrefsStep.invoke true, PrefsStep.complete 0 (Except.ok 7)] =
      true ∧
    (¬ 0 ∈ (completeRemove 0 prefsInit).activeCalls ∧
     completeCall 0 (Except.ok 7) prefsInit =
       completeInvoke 0 (Except.ok 7) (completeRemove 0 prefsInit) ∧
     (completeInvoke 0 (Except.ok 7) (completeRemove 0 prefsInit)).activeCalls =
       (completeRemove 0 prefsInit).activeCalls ∧
     ∀ e ∈ (runPrefs [PrefsStep.invoke true,
         PrefsStep.complete 0 (Except.ok 7)]).log,
       ¬ e.callId ∈ (runPrefs [PrefsStep.invoke true,
         PrefsStep.complete 0 (Except.ok 7)]).activeCalls) :=
  ⟨by decide,
   registry_removes_before_callback
     [PrefsStep.invoke true, PrefsStep.complete 0 (Except.ok 7)]
     0 (Except.ok 7) prefsInit (by decide)⟩

/-- C1 (amended): after `cancelAll()` (the close-request handler) the
tracked set is empty immediately; a call that was in flight when
`cancelAll()` ran never invokes its success callback afterwards; but its
eventual completion does still run the error path — the caller's
`onError` or the default handler — with the cancellation error, because
`call_finish` throws `G_IO_ERROR_CANCELLED` and the callback does not
filter it out. -/
theorem registry_cancelAll_behaviour (pre post : List PrefsStep) (id : Nat)
    (hv : validSchedule pre = true)
    (hid : id ∈ (runPrefs pre).activeCalls) :
    (runPrefs (pre ++ [PrefsStep.close])).activeCalls = [] ∧
    (∀ v, CbEvent.success id v ∉ (runPrefs (pre ++ PrefsStep.close :: post)).log) ∧
    (∀ raw s, id ∈ s.cancelled →
      ∃ e, (completeCall id raw s).log = s.log ++ [e] ∧
        (e = CbEvent.errorCb id DbusError.cancelled ∨
         e = CbEvent.defaultMsg id DbusError.cancelled)) := by
  have hinv := regInv_run pre prefsInit hv regInv_init
  have hclose : runPrefs (pre ++ PrefsStep.close :: post) =
      runPrefsFrom (closeRequest (runPrefs pre)) post := by
    show runPrefsFrom prefsInit (pre ++ PrefsStep.close :: post) = _
    rw [runPrefsFrom_append, runPrefsFrom]
    rfl
  refine ⟨?_, ?_, ?_⟩
  · show (runPrefsFrom prefsInit (pre ++ [PrefsStep.close])).activeCalls = []
    rw [runPrefsFrom_append, runPrefsFrom]
    rfl
  · intro v
    rw [hclose]
    refine no_success_after_cancel id post (closeRequest (runPrefs pre)) ?_ ?_ v
    · exact List.mem_append_right _ hid
    · intro w hw
      exact hinv.2.1 id hid (hinv.1 (CbEvent.success id w) hw)
  · intro raw s hc
    obtain ⟨e, _, he, hcanc⟩ := completeInvoke_log id raw (completeRemove id s)
    refine ⟨e, ?_, hcanc hc⟩
    rw [completeCall, he]
    rfl

/-- C1 witness: one in-flight call, `cancelAll()`, then the transport
delivers the completion. -/
theorem registry_cancelAll_witness :
    validSchedule [PrefsStep.invoke true] = true ∧
    0 ∈ (runPrefs [PrefsStep.invoke true]).activeCalls ∧
    ((runPrefs ([PrefsStep.invoke true] ++ [PrefsStep.close])).activeCalls = [] ∧
     (∀ v, CbEvent.success 0 v ∉
       (runPrefs ([PrefsStep.invoke true] ++ PrefsStep.close ::
         [PrefsStep.complete 0 (Except.ok 7)])).log) ∧
     (∀ raw s, 0 ∈ s.cancelled →
       ∃ e, (completeCall 0 raw s).log = s.log ++ [e] ∧
         (e = CbEvent.errorCb 0 DbusError.cancelled ∨
          e = CbEvent.defaultMsg 0 DbusError.cancelled))) :=
  ⟨by decide, by decide,
   registry_cancelAll_behaviour [PrefsStep.invoke true]
     [PrefsStep.complete 0 (Except.ok 7)] 0 (by decide) (by decide)⟩

/-- C1 counterexample: a call is in flight, `cancelAll()` runs (no
callback has fired and the tracked set is cleared), and then the
transport delivers the completion: the error callback IS invoked — with
the cancellation error — refuting "the call's success and error
callbacks are never invoked" after `cancelAll()`. -/
theorem registry_cancelAll_counterexample :
    (runPrefs [PrefsStep.invoke true, PrefsStep.close]).log = [] ∧
    (runPrefs [PrefsStep.invoke true, PrefsStep.close]).activeCalls = [] ∧
    (runPrefs [PrefsStep.invoke true, PrefsStep.close,
        PrefsStep.complete 0 (Except.ok 7)]).log =
      [CbEvent.errorCb 0 DbusError.cancelled] :=
  ⟨rfl, rfl, rfl⟩

end SelectionTranslator
